import Mathlib

/-!
Verification of the agent-coordination core of the coding-agent repository.

The definitions below are a shallow embedding of `src/core/coordination.ts`
(orchestrateAgents, resumeOrchestration, executeAgent, resultToSession),
of the Convex store functions in `convex/agentSessions.ts`, and of the
dry-run persistence guard shared by the agent classes
(`src/agents/planner.ts` and its siblings).

Modelling conventions:
- Convex mutations and agent invocations are recorded as an ordered trace of
  `Event` values; the single-threaded orchestrator awaits every call, so trace
  order coincides with wall-clock order.
- JavaScript truthiness of optional strings (undefined and the empty string
  are falsy) is `truthyStr`.
- TypeScript enum values are runtime strings; persisted records therefore
  carry `String` fields, while the orchestrator-side roles use the inductive
  `AgentType` with `roleStr` giving the runtime string.
- Timestamps are integers (milliseconds); wall-clock values that the code
  obtains from `Date.now()` inside a synthesized failure result are
  abstracted as 0, since nothing downstream reads them.
- An agent execution (`BaseAgent.execute`) either returns a result or throws;
  its internal store writes (plans/store, codeChanges/record, reviews/store)
  are the `AgentStoreEvent` list it emits before finishing.
-/

namespace CodingAgent

/-- The three agent roles (enum AgentType in `src/agents/types.ts`). -/
inductive AgentType
  | planner
  | coder
  | reviewer
deriving DecidableEq, Repr

/-- Runtime string value of the AgentType enum. -/
def roleStr : AgentType → String
  | .planner => "planner"
  | .coder => "coder"
  | .reviewer => "reviewer"

/-- Task status enum (`src/agents/types.ts`). -/
inductive TaskStatus
  | pending
  | planning
  | coding
  | reviewing
  | completed
  | failed
deriving DecidableEq, Repr

/-- A code change record as passed between agents (CodeChangesContext). -/
structure CodeChange where
  filePath : String
  changeType : String
  summary : String
deriving DecidableEq, Repr

/-- In-memory plan context (PlanContext in coordination.ts). -/
structure PlanContext where
  content : String
  createdAt : Int
deriving DecidableEq, Repr

/-- Result of one agent execution (AgentResult in `src/agents/types.ts`).
`metadataCodeChanges` models `result.metadata?.codeChanges`: `none` when the
metadata or its codeChanges field is absent, `some` (possibly `some []`) when
present — a present empty array is truthy in JavaScript. -/
structure AgentResult where
  agentType : String
  success : Bool
  content : String
  error? : Option String
  completedAt : Int
  metadataCodeChanges : Option (List CodeChange)
deriving DecidableEq, Repr

/-- In-memory AgentSession record used for context passing
(`src/agents/types.ts`). -/
structure AgentSession where
  id : String
  agentType : String
  taskId : String
  status : String
  startedAt : Int
  completedAt : Int
  result : String
  error? : Option String
deriving DecidableEq, Repr

/-- coordination.ts resultToSession: converts an AgentResult into an
AgentSession for the previousSessions context list. -/
def resultToSession (r : AgentResult) : AgentSession :=
  { id := r.agentType ++ "-" ++ toString r.completedAt
    agentType := r.agentType
    taskId := ""
    status := if r.success then "completed" else "failed"
    startedAt := r.completedAt - 1000
    completedAt := r.completedAt
    result := r.content
    error? := r.error? }

/-- Context passed to an agent (AgentContext in `src/agents/types.ts`).
Optional fields are set only on the paths where coordination.ts assigns
them. -/
structure AgentContext where
  taskDescription : String
  taskId : String
  plan? : Option PlanContext
  codeChanges? : Option (List CodeChange)
  previousSessions : List AgentSession
deriving DecidableEq, Repr

/-- Store writes an agent performs internally during execute (plans/store in
planner.ts, codeChanges/record in coder.ts, reviews/store in reviewer.ts). -/
inductive AgentStoreEvent
  | storePlan (content : String)
  | recordCodeChange (change : CodeChange)
  | storeReview (content : String)
deriving DecidableEq, Repr

/-- One observable step of an orchestration run: a Convex mutation issued by
coordination.ts, or the invocation of an agent with its context. -/
inductive Event
  | createTask (description : String)
  | createSession (role : AgentType)
  | startSession (role : AgentType)
  | completeSession (role : AgentType) (result : String)
  | failSession (role : AgentType) (error : String)
  | updateTaskStatus (status : TaskStatus)
  | setTaskError (error : String)
  | clearTaskError
  | invokeAgent (role : AgentType) (ctx : AgentContext)
  | agentStore (e : AgentStoreEvent)
deriving DecidableEq, Repr

/-- Outcome of `agent.execute`: a returned result, or a thrown error whose
message is recorded. -/
inductive AgentOutcome
  | returns (r : AgentResult)
  | throws (msg : String)

/-- A BaseAgent: its role (getAgentType, hard-coded per subclass) and its
execute behaviour, a function of the context and of the dryRun flag from the
execution options, yielding the store writes it performed and its outcome. -/
structure Agent where
  type : AgentType
  behavior : AgentContext → Bool → List AgentStoreEvent × AgentOutcome

/-- base.ts createFailureResult: a synthesized failure result with empty
content and no metadata (wall-clock completedAt abstracted as 0). -/
def createFailureResult (agentType : String) (error : String) : AgentResult :=
  { agentType := agentType
    success := false
    content := ""
    error? := some error
    completedAt := 0
    metadataCodeChanges := none }

/-- coordination.ts executeAgent: creates a session, starts it, invokes the
agent, then completes or fails the session from the result; a thrown error is
caught, the session is failed with the message, and a synthesized failure
result is returned. The function is total: no exception escapes it. -/
def executeAgent (agent : Agent) (ctx : AgentContext) (dryRun : Bool) :
    List Event × AgentResult :=
  let pre : List Event :=
    [.createSession agent.type, .startSession agent.type, .invokeAgent agent.type ctx]
  match agent.behavior ctx dryRun with
  | (evs, .returns r) =>
      if r.success then
        (pre ++ evs.map Event.agentStore ++ [.completeSession agent.type r.content], r)
      else
        (pre ++ evs.map Event.agentStore ++
          [.failSession agent.type (r.error?.getD "Agent execution failed")], r)
  | (evs, .throws msg) =>
      (pre ++ evs.map Event.agentStore ++ [.failSession agent.type msg],
       createFailureResult (roleStr agent.type) msg)

/-- Result of an orchestration run (OrchestrationResult in coordination.ts). -/
structure OrchestrationResult where
  taskId : String
  status : TaskStatus
  agentResults : List AgentResult
  error? : Option String
deriving DecidableEq, Repr

/-- OrchestrationOptions: the agents record (each slot possibly missing at
runtime), the dryRun flag of the execution options, and the two mode flags.
resumeOrchestration ignores planOnly. -/
structure OrchestrationOptions where
  planner? : Option Agent
  coder? : Option Agent
  reviewer? : Option Agent
  dryRun : Bool
  skipReview : Bool
  planOnly : Bool

/-- Lookup `agents[agentType]` on the options record. -/
def OrchestrationOptions.agentFor (o : OrchestrationOptions) : AgentType → Option Agent
  | .planner => o.planner?
  | .coder => o.coder?
  | .reviewer => o.reviewer?

/-- The context handed to the planner stage by orchestrateAgents. -/
def initialContext (desc taskId : String) : AgentContext :=
  { taskDescription := desc
    taskId := taskId
    plan? := none
    codeChanges? := none
    previousSessions := [] }

/-- Body of orchestrateAgents after validation and task creation
(coordination.ts lines 136-331). `taskId` is the id the createTask mutation
returned. Mutation calls are modelled as always succeeding, so the top-level
catch block of the source is unreachable here except through the
`agents.reviewer!` access, modelled in the `none` reviewer branch. -/
def orchestrateFrom (desc taskId : String) (planner coder : Agent)
    (o : OrchestrationOptions) : List Event × OrchestrationResult :=
  let ev0 : List Event := [.createTask desc]
  let ctxP := initialContext desc taskId
  let pr := executeAgent planner ctxP o.dryRun
  let plannerResult := pr.2
  let results1 := [plannerResult]
  if ¬plannerResult.success then
    (ev0 ++ pr.1 ++ [.setTaskError (plannerResult.error?.getD "Planner agent failed")],
     { taskId := taskId, status := .failed, agentResults := results1,
       error? := plannerResult.error? })
  else
    let planContext : PlanContext :=
      { content := plannerResult.content, createdAt := plannerResult.completedAt }
    let ev1 := ev0 ++ pr.1 ++ [Event.updateTaskStatus .planning]
    if o.planOnly then
      (ev1 ++ [.updateTaskStatus .completed],
       { taskId := taskId, status := .completed, agentResults := results1, error? := none })
    else
      let ev2 := ev1 ++ [Event.updateTaskStatus .coding]
      let ctxC : AgentContext :=
        { taskDescription := desc, taskId := taskId, plan? := some planContext,
          codeChanges? := none, previousSessions := results1.map resultToSession }
      let cr := executeAgent coder ctxC o.dryRun
      let coderResult := cr.2
      let results2 := results1 ++ [coderResult]
      if ¬coderResult.success then
        (ev2 ++ cr.1 ++ [.setTaskError (coderResult.error?.getD "Coder agent failed")],
         { taskId := taskId, status := .failed, agentResults := results2,
           error? := coderResult.error? })
      else
        let codeChanges : List CodeChange := coderResult.metadataCodeChanges.getD []
        -- the source re-writes status Coding here: the local taskStatus still
        -- holds Coding when the post-coder update runs
        let ev3 := ev2 ++ cr.1 ++ [Event.updateTaskStatus .coding]
        if o.skipReview then
          (ev3 ++ [.updateTaskStatus .completed],
           { taskId := taskId, status := .completed, agentResults := results2,
             error? := none })
        else
          match o.reviewer? with
          | none =>
              -- unreachable under the entry validation; models the TypeError
              -- from `agents.reviewer!` being caught by the top-level handler
              (ev3 ++ [.setTaskError "Unknown error"],
               { taskId := taskId, status := .failed, agentResults := results2,
                 error? := some "Unknown error" })
          | some reviewer =>
              let ev4 := ev3 ++ [Event.updateTaskStatus .reviewing]
              let ctxR : AgentContext :=
                { taskDescription := desc, taskId := taskId, plan? := some planContext,
                  codeChanges? := some codeChanges,
                  previousSessions := results2.map resultToSession }
              let rr := executeAgent reviewer ctxR o.dryRun
              let reviewerResult := rr.2
              let results3 := results2 ++ [reviewerResult]
              if ¬reviewerResult.success then
                (ev4 ++ rr.1 ++
                   [.setTaskError (reviewerResult.error?.getD "Reviewer agent failed")],
                 { taskId := taskId, status := .failed, agentResults := results3,
                   error? := reviewerResult.error? })
              else
                (ev4 ++ rr.1 ++ [Event.updateTaskStatus .completed],
                 { taskId := taskId, status := .completed, agentResults := results3,
                   error? := none })

/-- coordination.ts orchestrateAgents: validates the agents record, creates
the task, and runs the planner-coder-reviewer pipeline. A validation failure
is a thrown WorkflowError, modelled as `.error`. -/
def orchestrateAgents (taskDescription taskId : String) (o : OrchestrationOptions) :
    Except String (List Event × OrchestrationResult) :=
  match o.planner?, o.coder? with
  | some planner, some coder =>
      if ¬o.skipReview ∧ ¬o.planOnly ∧ o.reviewer?.isNone then
        .error "Reviewer agent is required when not skipping review"
      else
        .ok (orchestrateFrom taskDescription taskId planner coder o)
  | _, _ => .error "Planner and Coder agents are required"

/-- JavaScript truthiness of an optional string: undefined and the empty
string are falsy, every other string is truthy. -/
def truthyStr : Option String → Bool
  | none => false
  | some s => s != ""

/-- A persisted task record (the shape resumeOrchestration queries via
tasks/getLatestIncompleteTask). -/
structure Task where
  id : String
  description : String
  status : String
  createdAt : Int
  error? : Option String
deriving DecidableEq, Repr

/-- A persisted agent-session row (the shape resumeOrchestration queries via
agentSessions/getAgentSessionsByTask; the agentSessions schema has no error
field, failures are stored in result). -/
structure PersistedSession where
  id : String
  agentType : String
  status : String
  result? : Option String
  startedAt : Int
  completedAt? : Option Int
deriving DecidableEq, Repr

/-- Insert a session into a list already sorted by startedAt descending,
keeping it before the first strictly smaller key and after equal keys seen
later in the fold, which together with `getAgentSessionsByTask` reproduces
the stable JavaScript sort. -/
def insertDesc (s : PersistedSession) : List PersistedSession → List PersistedSession
  | [] => [s]
  | t :: ts => if t.startedAt ≤ s.startedAt then s :: t :: ts else t :: insertDesc s ts

/-- agentSessions.ts getAgentSessionsByTask: the task sessions sorted by
startedAt descending; JavaScript Array.prototype.sort is stable, modelled by
a stable insertion sort. -/
def getAgentSessionsByTask : List PersistedSession → List PersistedSession
  | [] => []
  | s :: ss => insertDesc s (getAgentSessionsByTask ss)

/-- The session test of the resume reconstruction loop:
`session.status === completed && session.result` (empty result is falsy). -/
def isCompletedWithResult (s : PersistedSession) : Bool :=
  s.status == "completed" && truthyStr s.result?

/-- Accumulated state of the resume reconstruction loop
(coordination.ts lines 397-430). completedAgents models the Set by a list
queried through contains. -/
structure ReconState where
  agentResults : List AgentResult
  planContext? : Option PlanContext
  codeChanges : List CodeChange
  completedAgents : List String
deriving Repr

/-- One iteration of the resume reconstruction loop over a stored session. -/
def reconStep (st : ReconState) (s : PersistedSession) : ReconState :=
  if isCompletedWithResult s then
    let content := s.result?.getD ""
    let completedAt := s.completedAt?.getD s.startedAt
    let r : AgentResult :=
      { agentType := s.agentType, success := true, content := content,
        error? := none, completedAt := completedAt, metadataCodeChanges := none }
    let st1 : ReconState :=
      { st with agentResults := st.agentResults ++ [r],
                completedAgents := st.completedAgents ++ [s.agentType] }
    if s.agentType == "planner" then
      { st1 with planContext? := some { content := content, createdAt := completedAt } }
    else if s.agentType == "coder" then
      -- source: `if (result.metadata?.codeChanges)`; the reconstructed result
      -- is built without metadata, so this branch can never fire
      match r.metadataCodeChanges with
      | some cs => { st1 with codeChanges := cs }
      | none => st1
    else st1
  else st

/-- Context reconstruction from the stored sessions, folded in the order the
sorted query returns them. -/
def reconstruct (sessions : List PersistedSession) : ReconState :=
  sessions.foldl reconStep ⟨[], none, [], []⟩

/-- The ordered remaining-stage list (coordination.ts lines 435-445):
always planner then coder then reviewer, each skipped when completedAgents
holds its enum string; the reviewer additionally requires skipReview unset
and a reviewer agent present. -/
def agentsToExecute (o : OrchestrationOptions) (ca : List String) : List AgentType :=
  (if ¬ca.contains "planner" then [AgentType.planner] else []) ++
  (if ¬ca.contains "coder" then [AgentType.coder] else []) ++
  (if ¬o.skipReview ∧ ¬ca.contains "reviewer" ∧ o.reviewer?.isSome
    then [AgentType.reviewer] else [])

/-- Task status written before a stage runs (the switch in the resume loop). -/
def stageStatus : AgentType → TaskStatus
  | .planner => .planning
  | .coder => .coding
  | .reviewer => .reviewing

/-- The per-stage context the resume loop builds (coordination.ts lines
470-484): the plan is attached for every role but the planner, the code
changes only for the reviewer and only when nonempty. -/
def resumeCtx (desc taskId : String) (agentType : AgentType)
    (results : List AgentResult) (planContext? : Option PlanContext)
    (codeChanges : List CodeChange) : AgentContext :=
  { taskDescription := desc, taskId := taskId,
    plan? := if agentType ≠ .planner then planContext? else none,
    codeChanges? :=
      if agentType = .reviewer ∧ 0 < codeChanges.length
        then some codeChanges else none,
    previousSessions := results.map resultToSession }

/-- The resume execution loop (coordination.ts lines 463-555): run each
remaining stage in order, threading plan and code-change context, stopping on
the first failure; a missing agent raises a WorkflowError that the
surrounding catch converts into a setTaskError plus Failed result. -/
def resumeLoop (desc taskId : String) (o : OrchestrationOptions) :
    List AgentType → List AgentResult → Option PlanContext → List CodeChange →
    List Event → List Event × OrchestrationResult
  | [], results, _, _, ev =>
      (ev ++ [.updateTaskStatus .completed],
       { taskId := taskId, status := .completed, agentResults := results, error? := none })
  | agentType :: rest, results, planContext?, codeChanges, ev =>
      match o.agentFor agentType with
      | none =>
          let msg := roleStr agentType ++ " agent not found in provided agents"
          (ev ++ [.setTaskError msg],
           { taskId := taskId, status := .failed, agentResults := results,
             error? := some msg })
      | some agent =>
          let ctx := resumeCtx desc taskId agentType results planContext? codeChanges
          let ev1 := ev ++ [Event.updateTaskStatus (stageStatus agentType)]
          let er := executeAgent agent ctx o.dryRun
          let results1 := results ++ [er.2]
          if ¬er.2.success then
            (ev1 ++ er.1 ++
               [.setTaskError (er.2.error?.getD (roleStr agentType ++ " agent failed"))],
             { taskId := taskId, status := .failed, agentResults := results1,
               error? := er.2.error? })
          else
            let planContext?' :=
              if agentType = .planner
                then some (PlanContext.mk er.2.content er.2.completedAt)
                else planContext?
            let codeChanges' :=
              if agentType = .coder
                then er.2.metadataCodeChanges.getD codeChanges
                else codeChanges
            resumeLoop desc taskId o rest results1 planContext?' codeChanges' (ev1 ++ er.1)

/-- coordination.ts resumeOrchestration. Inputs: the task returned by
tasks/getLatestIncompleteTask (none raises the nothing-to-resume
WorkflowError) and the raw stored session rows of that task, which the
getAgentSessionsByTask query returns sorted by startedAt descending. Clears
a stored task error, reconstructs context from completed sessions, computes
the remaining stages, and either completes immediately or runs the loop. -/
def resumeOrchestration (task? : Option Task) (stored : List PersistedSession)
    (o : OrchestrationOptions) : Except String (List Event × OrchestrationResult) :=
  match task? with
  | none => .error "No incomplete task found to resume. All tasks are completed."
  | some task =>
      let taskId := task.id
      let desc := task.description
      let ev0 : List Event := if truthyStr task.error? then [.clearTaskError] else []
      let sessions := getAgentSessionsByTask stored
      let st := reconstruct sessions
      let toRun := agentsToExecute o st.completedAgents
      if toRun.isEmpty then
        .ok (ev0 ++ [.updateTaskStatus .completed],
             { taskId := taskId, status := .completed,
               agentResults := st.agentResults, error? := none })
      else
        .ok (resumeLoop desc taskId o toRun st.agentResults st.planContext?
               st.codeChanges ev0)

/-- agentSessions.ts: a session row as created by createAgentSession
(status pending, startedAt now, no result, no completedAt; the schema has no
error field). -/
def createAgentSession (taskId agentType : String) (now : Int) : PersistedSession :=
  { id := taskId ++ "-" ++ agentType, agentType := agentType, status := "pending",
    result? := none, startedAt := now, completedAt? := none }

/-- agentSessions.ts startAgentSession: patch status to running. -/
def startAgentSession (s : PersistedSession) : PersistedSession :=
  { s with status := "running" }

/-- agentSessions.ts completeAgentSession: one patch writing the result
content, status completed and completedAt. -/
def completeAgentSession (s : PersistedSession) (result : String) (now : Int) :
    PersistedSession :=
  { s with result? := some result, status := "completed", completedAt? := some now }

/-- agentSessions.ts failAgentSession: one patch storing the error message in
the result field, status failed and completedAt. -/
def failAgentSession (s : PersistedSession) (error : String) (now : Int) :
    PersistedSession :=
  { s with result? := some error, status := "failed", completedAt? := some now }

/-- The patch mutations applicable to a session row after creation. -/
inductive SessionMut
  | start
  | complete (result : String) (now : Int)
  | fail (error : String) (now : Int)

/-- Apply one session mutation. -/
def applySessionMut (s : PersistedSession) : SessionMut → PersistedSession
  | .start => startAgentSession s
  | .complete r n => completeAgentSession s r n
  | .fail e n => failAgentSession s e n

/-- The dry-run guard every agent subclass puts in front of its
stage-specific persistence: `!options?.dryRun && this.config.taskId`
(planner.ts lines 113-117; the same test appears in coder.ts and
reviewer.ts). -/
def stageStoreGuard (dryRun : Bool) (configTaskId? : Option String) : Bool :=
  !dryRun && truthyStr configTaskId?

/-- PlannerAgent.execute on its success path (planner.ts): streams the plan
content, issues plans/store iff the dry-run guard passes, and returns a
success result whose metadata carries no codeChanges. `configTaskId?` is the
taskId of the agent configuration, which the CLI leaves unset. -/
def plannerAgent (configTaskId? : Option String) (llmContent : String) (now : Int) :
    Agent :=
  { type := .planner
    behavior := fun _ dryRun =>
      (if stageStoreGuard dryRun configTaskId? then [.storePlan llmContent] else [],
       .returns { agentType := "planner", success := true, content := llmContent,
                  error? := none, completedAt := now, metadataCodeChanges := none }) }

/-- Trace projection: roles of the created sessions, in creation order. In a
run every session is created at its start, and the single-threaded pipeline
creates sessions in strictly increasing wall-clock order, so this list is the
run sessions ordered by start time. -/
def sessionStarts (tr : List Event) : List AgentType :=
  tr.filterMap fun e => match e with
    | .createSession r => some r
    | _ => none

/-- Trace projection: roles whose execute was invoked, in order. -/
def invokedRoles (tr : List Event) : List AgentType :=
  tr.filterMap fun e => match e with
    | .invokeAgent r _ => some r
    | _ => none

/-- Trace projection: contexts passed to invocations of the given role. -/
def contextsFor (role : AgentType) (tr : List Event) : List AgentContext :=
  tr.filterMap fun e => match e with
    | .invokeAgent r c => if r = role then some c else none
    | _ => none

/-- Trace projection: arguments of the setTaskError mutations. -/
def taskErrors (tr : List Event) : List String :=
  tr.filterMap fun e => match e with
    | .setTaskError m => some m
    | _ => none

/-- Trace projection: statuses written by updateTaskStatus, in order. -/
def statusWrites (tr : List Event) : List TaskStatus :=
  tr.filterMap fun e => match e with
    | .updateTaskStatus s => some s
    | _ => none

/-- Trace projection: store writes performed inside agent executions. -/
def storeEvents (tr : List Event) : List AgentStoreEvent :=
  tr.filterMap fun e => match e with
    | .agentStore a => some a
    | _ => none

/-- Trace projection: contents written to the plans table. -/
def storePlanContents (tr : List Event) : List String :=
  tr.filterMap fun e => match e with
    | .agentStore (.storePlan c) => some c
    | _ => none

/-- The trace of a run, empty when the call raised before running. -/
def traceOf : Except String (List Event × OrchestrationResult) → List Event
  | .ok p => p.1
  | .error _ => []

/-- The result of a run, none when the call raised before running. -/
def resultOf : Except String (List Event × OrchestrationResult) →
    Option OrchestrationResult
  | .ok p => some p.2
  | .error _ => none

/-- A stored session that the reconstruction treats as a completed planner
session. -/
def isCompletedPlanner (s : PersistedSession) : Bool :=
  s.agentType == "planner" && isCompletedWithResult s

/-- The plan context the reconstruction loop builds from a completed planner
session. -/
def sessionPlan (s : PersistedSession) : PlanContext :=
  { content := s.result?.getD "", createdAt := s.completedAt?.getD s.startedAt }

/-- The in-memory result the reconstruction loop builds from a completed
session. -/
def sessionResult (s : PersistedSession) : AgentResult :=
  { agentType := s.agentType, success := true, content := s.result?.getD "",
    error? := none, completedAt := s.completedAt?.getD s.startedAt,
    metadataCodeChanges := none }

/-- The plans/store contents among a list of agent store writes. -/
def planWrites (evs : List AgentStoreEvent) : List String :=
  evs.filterMap fun e => match e with
    | .storePlan c => some c
    | _ => none

/-- A stub agent that always succeeds with the given content and performs no
internal store writes (an agent whose configuration has no taskId behaves
this way on the store side). -/
def okAgent (t : AgentType) (content : String) : Agent :=
  { type := t
    behavior := fun _ _ => ([], .returns
      { agentType := roleStr t, success := true, content := content,
        error? := none, completedAt := 7, metadataCodeChanges := none }) }

/-- A planner agent whose execute returns a failure result. -/
def failingPlanner : Agent :=
  { type := .planner
    behavior := fun _ _ => ([], .returns
      { agentType := "planner", success := false, content := "",
        error? := some "plan failed", completedAt := 4, metadataCodeChanges := none }) }

/-- A coder agent whose execute throws. -/
def throwingAgent : Agent :=
  { type := .coder, behavior := fun _ _ => ([], .throws "boom") }

/-- Concrete incomplete task used as input of the resume runs below. -/
def task1 : Task :=
  { id := "t1", description := "d", status := "coding", createdAt := 0, error? := none }

/-- A completed planner session (old, small startedAt). -/
def plannerSessionOld : PersistedSession :=
  { id := "s1", agentType := "planner", status := "completed",
    result? := some "old plan", startedAt := 10, completedAt? := some 11 }

/-- A completed planner session (newer, larger startedAt). -/
def plannerSessionNew : PersistedSession :=
  { id := "s3", agentType := "planner", status := "completed",
    result? := some "new plan", startedAt := 50, completedAt? := some 51 }

/-- A completed coder session. -/
def coderSession1 : PersistedSession :=
  { id := "s2", agentType := "coder", status := "completed",
    result? := some "done", startedAt := 20, completedAt? := some 21 }

/-- A planner session whose status is completed but whose result is the empty
string, which JavaScript truthiness treats as absent. -/
def emptyResultPlannerSession : PersistedSession :=
  { id := "s4", agentType := "planner", status := "completed",
    result? := some "", startedAt := 30, completedAt? := some 31 }

/-- Options for a full happy-path run: a CLI-style planner (no configured
taskId), stub coder and reviewer, nothing skipped, no dry run. -/
def opts7 : OrchestrationOptions :=
  { planner? := some (plannerAgent none "the plan" 3)
    coder? := some (okAgent .coder "did it")
    reviewer? := some (okAgent .reviewer "ok")
    dryRun := false, skipReview := false, planOnly := false }

/-- Options for a run whose planner fails. -/
def optsFail : OrchestrationOptions :=
  { planner? := some failingPlanner
    coder? := some (okAgent .coder "did it")
    reviewer? := some (okAgent .reviewer "ok")
    dryRun := false, skipReview := false, planOnly := false }

/-- Options for resume runs: only a reviewer agent is provided. -/
def resumeOpts1 : OrchestrationOptions :=
  { planner? := none, coder? := none, reviewer? := some (okAgent .reviewer "ok")
    dryRun := false, skipReview := false, planOnly := false }

/-- Options for the idempotent-resume run: review skipped, no agents needed. -/
def resumeOpts4 : OrchestrationOptions :=
  { planner? := none, coder? := none, reviewer? := none
    dryRun := false, skipReview := true, planOnly := false }

/-- The happy-path orchestration run. -/
def run7 : Except String (List Event × OrchestrationResult) :=
  orchestrateAgents "d" "t1" opts7

/-- The failing-planner orchestration run. -/
def runFail : Except String (List Event × OrchestrationResult) :=
  orchestrateAgents "d" "t1" optsFail

/-- The resume run over a completed planner and coder session. -/
def runResume1 : Except String (List Event × OrchestrationResult) :=
  resumeOrchestration (some task1) [plannerSessionOld, coderSession1] resumeOpts1

/-- A concrete initial context used by the executor-level witnesses. -/
def ctx1 : AgentContext := initialContext "d" "t1"

/-- The result record of the happy-path run. -/
def res7 : OrchestrationResult :=
  match run7 with
  | .ok p => p.2
  | .error _ => { taskId := "", status := .failed, agentResults := [], error? := none }

/-- The result record of the failing-planner run. -/
def resFail : OrchestrationResult :=
  match runFail with
  | .ok p => p.2
  | .error _ => { taskId := "", status := .failed, agentResults := [], error? := none }

/-- The result record of the resume run. -/
def resResume1 : OrchestrationResult :=
  match runResume1 with
  | .ok p => p.2
  | .error _ => { taskId := "", status := .failed, agentResults := [], error? := none }

/-- Well-typed agents record: each provided slot holds an agent of the
matching role, as the agent subclasses hard-code getAgentType. -/
def wellTyped (o : OrchestrationOptions) : Prop :=
  (∀ a, o.planner? = some a → a.type = .planner) ∧
  (∀ a, o.coder? = some a → a.type = .coder) ∧
  (∀ a, o.reviewer? = some a → a.type = .reviewer)

@[simp]
theorem sessionStarts_append (a b : List Event) :
    sessionStarts (a ++ b) = sessionStarts a ++ sessionStarts b := by
  simp [sessionStarts]

@[simp]
theorem invokedRoles_append (a b : List Event) :
    invokedRoles (a ++ b) = invokedRoles a ++ invokedRoles b := by
  simp [invokedRoles]

@[simp]
theorem contextsFor_append (role : AgentType) (a b : List Event) :
    contextsFor role (a ++ b) = contextsFor role a ++ contextsFor role b := by
  simp [contextsFor]

@[simp]
theorem taskErrors_append (a b : List Event) :
    taskErrors (a ++ b) = taskErrors a ++ taskErrors b := by
  simp [taskErrors]

@[simp]
theorem statusWrites_append (a b : List Event) :
    statusWrites (a ++ b) = statusWrites a ++ statusWrites b := by
  simp [statusWrites]

@[simp]
theorem storeEvents_append (a b : List Event) :
    storeEvents (a ++ b) = storeEvents a ++ storeEvents b := by
  simp [storeEvents]

@[simp]
theorem storePlanContents_append (a b : List Event) :
    storePlanContents (a ++ b) = storePlanContents a ++ storePlanContents b := by
  simp [storePlanContents]

@[simp]
theorem sessionStarts_executeAgent (a : Agent) (ctx : AgentContext) (d : Bool) :
    sessionStarts (executeAgent a ctx d).1 = [a.type] := by
  rcases h : a.behavior ctx d with ⟨evs, out⟩
  cases out with
  | returns r =>
      by_cases hs : r.success <;>
        simp [executeAgent, h, hs, sessionStarts, List.filterMap_map, Function.comp]
  | throws m =>
      simp [executeAgent, h, sessionStarts, List.filterMap_map, Function.comp]

@[simp]
theorem invokedRoles_executeAgent (a : Agent) (ctx : AgentContext) (d : Bool) :
    invokedRoles (executeAgent a ctx d).1 = [a.type] := by
  rcases h : a.behavior ctx d with ⟨evs, out⟩
  cases out with
  | returns r =>
      by_cases hs : r.success <;>
        simp [executeAgent, h, hs, invokedRoles, List.filterMap_map, Function.comp]
  | throws m =>
      simp [executeAgent, h, invokedRoles, List.filterMap_map, Function.comp]

@[simp]
theorem contextsFor_executeAgent (role : AgentType) (a : Agent) (ctx : AgentContext)
    (d : Bool) :
    contextsFor role (executeAgent a ctx d).1 = if a.type = role then [ctx] else [] := by
  rcases h : a.behavior ctx d with ⟨evs, out⟩
  by_cases hr : a.type = role
  all_goals cases out with
  | returns r =>
      by_cases hs : r.success <;>
        simp [executeAgent, h, hs, hr, contextsFor, List.filterMap_map, Function.comp]
  | throws m =>
      simp [executeAgent, h, hr, contextsFor, List.filterMap_map, Function.comp]

@[simp]
theorem taskErrors_executeAgent (a : Agent) (ctx : AgentContext) (d : Bool) :
    taskErrors (executeAgent a ctx d).1 = [] := by
  rcases h : a.behavior ctx d with ⟨evs, out⟩
  cases out with
  | returns r =>
      by_cases hs : r.success <;>
        simp [executeAgent, h, hs, taskErrors, List.filterMap_map, Function.comp]
  | throws m =>
      simp [executeAgent, h, taskErrors, List.filterMap_map, Function.comp]

@[simp]
theorem statusWrites_executeAgent (a : Agent) (ctx : AgentContext) (d : Bool) :
    statusWrites (executeAgent a ctx d).1 = [] := by
  rcases h : a.behavior ctx d with ⟨evs, out⟩
  cases out with
  | returns r =>
      by_cases hs : r.success <;>
        simp [executeAgent, h, hs, statusWrites, List.filterMap_map, Function.comp]
  | throws m =>
      simp [executeAgent, h, statusWrites, List.filterMap_map, Function.comp]

@[simp]
theorem storeEvents_executeAgent (a : Agent) (ctx : AgentContext) (d : Bool) :
    storeEvents (executeAgent a ctx d).1 = (a.behavior ctx d).1 := by
  rcases h : a.behavior ctx d with ⟨evs, out⟩
  cases out with
  | returns r =>
      by_cases hs : r.success <;>
        · simp [executeAgent, h, hs, storeEvents, List.filterMap_map, Function.comp]
          exact List.filterMap_some evs
  | throws m =>
      simp [executeAgent, h, storeEvents, List.filterMap_map, Function.comp]
      exact List.filterMap_some evs

theorem storePlanContents_eq_planWrites (tr : List Event) :
    storePlanContents tr = planWrites (storeEvents tr) := by
  induction tr with
  | nil => rfl
  | cons e t ih =>
      cases e with
      | agentStore a =>
          cases a <;>
            simp_all [storePlanContents, storeEvents, planWrites, List.filterMap_cons]
      | createTask d =>
          simp_all [storePlanContents, storeEvents, planWrites, List.filterMap_cons]
      | createSession r =>
          simp_all [storePlanContents, storeEvents, planWrites, List.filterMap_cons]
      | startSession r =>
          simp_all [storePlanContents, storeEvents, planWrites, List.filterMap_cons]
      | completeSession r x =>
          simp_all [storePlanContents, storeEvents, planWrites, List.filterMap_cons]
      | failSession r x =>
          simp_all [storePlanContents, storeEvents, planWrites, List.filterMap_cons]
      | updateTaskStatus s =>
          simp_all [storePlanContents, storeEvents, planWrites, List.filterMap_cons]
      | setTaskError m =>
          simp_all [storePlanContents, storeEvents, planWrites, List.filterMap_cons]
      | clearTaskError =>
          simp_all [storePlanContents, storeEvents, planWrites, List.filterMap_cons]
      | invokeAgent r c =>
          simp_all [storePlanContents, storeEvents, planWrites, List.filterMap_cons]

@[simp]
theorem storePlanContents_executeAgent (a : Agent) (ctx : AgentContext) (d : Bool) :
    storePlanContents (executeAgent a ctx d).1 = planWrites (a.behavior ctx d).1 := by
  rw [storePlanContents_eq_planWrites, storeEvents_executeAgent]

@[simp]
theorem sessionStarts_nil : sessionStarts [] = [] := rfl

@[simp]
theorem invokedRoles_nil : invokedRoles [] = [] := rfl

@[simp]
theorem contextsFor_nil (role : AgentType) : contextsFor role [] = [] := rfl

@[simp]
theorem taskErrors_nil : taskErrors [] = [] := rfl

@[simp]
theorem statusWrites_nil : statusWrites [] = [] := rfl

@[simp]
theorem storeEvents_nil : storeEvents [] = [] := rfl

@[simp]
theorem storePlanContents_nil : storePlanContents [] = [] := rfl

@[simp]
theorem sessionStarts_cons_createTask (d : String) (tr : List Event) :
    sessionStarts (Event.createTask d :: tr) = sessionStarts tr := by
  simp [sessionStarts]

@[simp]
theorem sessionStarts_cons_updateTaskStatus (s : TaskStatus) (tr : List Event) :
    sessionStarts (Event.updateTaskStatus s :: tr) = sessionStarts tr := by
  simp [sessionStarts]

@[simp]
theorem sessionStarts_cons_setTaskError (m : String) (tr : List Event) :
    sessionStarts (Event.setTaskError m :: tr) = sessionStarts tr := by
  simp [sessionStarts]

@[simp]
theorem sessionStarts_cons_clearTaskError (tr : List Event) :
    sessionStarts (Event.clearTaskError :: tr) = sessionStarts tr := by
  simp [sessionStarts]

@[simp]
theorem invokedRoles_cons_createTask (d : String) (tr : List Event) :
    invokedRoles (Event.createTask d :: tr) = invokedRoles tr := by
  simp [invokedRoles]

@[simp]
theorem invokedRoles_cons_updateTaskStatus (s : TaskStatus) (tr : List Event) :
    invokedRoles (Event.updateTaskStatus s :: tr) = invokedRoles tr := by
  simp [invokedRoles]

@[simp]
theorem invokedRoles_cons_setTaskError (m : String) (tr : List Event) :
    invokedRoles (Event.setTaskError m :: tr) = invokedRoles tr := by
  simp [invokedRoles]

@[simp]
theorem invokedRoles_cons_clearTaskError (tr : List Event) :
    invokedRoles (Event.clearTaskError :: tr) = invokedRoles tr := by
  simp [invokedRoles]

@[simp]
theorem contextsFor_cons_createTask (role : AgentType) (d : String) (tr : List Event) :
    contextsFor role (Event.createTask d :: tr) = contextsFor role tr := by
  simp [contextsFor]

@[simp]
theorem contextsFor_cons_updateTaskStatus (role : AgentType) (s : TaskStatus)
    (tr : List Event) :
    contextsFor role (Event.updateTaskStatus s :: tr) = contextsFor role tr := by
  simp [contextsFor]

@[simp]
theorem contextsFor_cons_setTaskError (role : AgentType) (m : String) (tr : List Event) :
    contextsFor role (Event.setTaskError m :: tr) = contextsFor role tr := by
  simp [contextsFor]

@[simp]
theorem contextsFor_cons_clearTaskError (role : AgentType) (tr : List Event) :
    contextsFor role (Event.clearTaskError :: tr) = contextsFor role tr := by
  simp [contextsFor]

@[simp]
theorem taskErrors_cons_createTask (d : String) (tr : List Event) :
    taskErrors (Event.createTask d :: tr) = taskErrors tr := by
  simp [taskErrors]

@[simp]
theorem taskErrors_cons_updateTaskStatus (s : TaskStatus) (tr : List Event) :
    taskErrors (Event.updateTaskStatus s :: tr) = taskErrors tr := by
  simp [taskErrors]

@[simp]
theorem taskErrors_cons_setTaskError (m : String) (tr : List Event) :
    taskErrors (Event.setTaskError m :: tr) = m :: taskErrors tr := by
  simp [taskErrors]

@[simp]
theorem taskErrors_cons_clearTaskError (tr : List Event) :
    taskErrors (Event.clearTaskError :: tr) = taskErrors tr := by
  simp [taskErrors]

@[simp]
theorem statusWrites_cons_createTask (d : String) (tr : List Event) :
    statusWrites (Event.createTask d :: tr) = statusWrites tr := by
  simp [statusWrites]

@[simp]
theorem statusWrites_cons_updateTaskStatus (s : TaskStatus) (tr : List Event) :
    statusWrites (Event.updateTaskStatus s :: tr) = s :: statusWrites tr := by
  simp [statusWrites]

@[simp]
theorem statusWrites_cons_setTaskError (m : String) (tr : List Event) :
    statusWrites (Event.setTaskError m :: tr) = statusWrites tr := by
  simp [statusWrites]

@[simp]
theorem statusWrites_cons_clearTaskError (tr : List Event) :
    statusWrites (Event.clearTaskError :: tr) = statusWrites tr := by
  simp [statusWrites]

@[simp]
theorem storeEvents_cons_createTask (d : String) (tr : List Event) :
    storeEvents (Event.createTask d :: tr) = storeEvents tr := by
  simp [storeEvents]

@[simp]
theorem storeEvents_cons_updateTaskStatus (s : TaskStatus) (tr : List Event) :
    storeEvents (Event.updateTaskStatus s :: tr) = storeEvents tr := by
  simp [storeEvents]

@[simp]
theorem storeEvents_cons_setTaskError (m : String) (tr : List Event) :
    storeEvents (Event.setTaskError m :: tr) = storeEvents tr := by
  simp [storeEvents]

@[simp]
theorem storeEvents_cons_clearTaskError (tr : List Event) :
    storeEvents (Event.clearTaskError :: tr) = storeEvents tr := by
  simp [storeEvents]

@[simp]
theorem storePlanContents_cons_createTask (d : String) (tr : List Event) :
    storePlanContents (Event.createTask d :: tr) = storePlanContents tr := by
  simp [storePlanContents]

@[simp]
theorem storePlanContents_cons_updateTaskStatus (s : TaskStatus) (tr : List Event) :
    storePlanContents (Event.updateTaskStatus s :: tr) = storePlanContents tr := by
  simp [storePlanContents]

@[simp]
theorem storePlanContents_cons_setTaskError (m : String) (tr : List Event) :
    storePlanContents (Event.setTaskError m :: tr) = storePlanContents tr := by
  simp [storePlanContents]

@[simp]
theorem storePlanContents_cons_clearTaskError (tr : List Event) :
    storePlanContents (Event.clearTaskError :: tr) = storePlanContents tr := by
  simp [storePlanContents]

@[simp]
theorem mem_insertDesc (x s : PersistedSession) (l : List PersistedSession) :
    x ∈ insertDesc s l ↔ x = s ∨ x ∈ l := by
  induction l with
  | nil => simp [insertDesc]
  | cons t ts ih =>
      by_cases h : t.startedAt ≤ s.startedAt
      · simp [insertDesc, h]
      · simp [insertDesc, h, ih]
        tauto

@[simp]
theorem mem_getAgentSessionsByTask (x : PersistedSession) (l : List PersistedSession) :
    x ∈ getAgentSessionsByTask l ↔ x ∈ l := by
  induction l with
  | nil => simp [getAgentSessionsByTask]
  | cons s ss ih => simp [getAgentSessionsByTask, ih]

theorem pairwise_insertDesc (s : PersistedSession) (l : List PersistedSession)
    (h : l.Pairwise fun a b => b.startedAt ≤ a.startedAt) :
    (insertDesc s l).Pairwise fun a b => b.startedAt ≤ a.startedAt := by
  induction l with
  | nil => simp [insertDesc]
  | cons t ts ih =>
      rcases List.pairwise_cons.1 h with ⟨hts, hp⟩
      by_cases hle : t.startedAt ≤ s.startedAt
      · rw [insertDesc, if_pos hle]
        refine List.pairwise_cons.2 ⟨?_, h⟩
        intro b hb
        rcases List.mem_cons.1 hb with rfl | hb
        · exact hle
        · exact le_trans (hts b hb) hle
      · rw [insertDesc, if_neg hle]
        refine List.pairwise_cons.2 ⟨?_, ih hp⟩
        intro b hb
        rcases (mem_insertDesc b s ts).1 hb with rfl | hb
        · omega
        · exact hts b hb

theorem pairwise_getAgentSessionsByTask (l : List PersistedSession) :
    (getAgentSessionsByTask l).Pairwise fun a b => b.startedAt ≤ a.startedAt := by
  induction l with
  | nil => simp [getAgentSessionsByTask]
  | cons s ss ih => exact pairwise_insertDesc s _ ih

theorem getLast?_min_of_pairwise (l : List PersistedSession) (x : PersistedSession)
    (hp : l.Pairwise fun a b => b.startedAt ≤ a.startedAt)
    (hl : l.getLast? = some x) :
    ∀ y ∈ l, x.startedAt ≤ y.startedAt := by
  induction l with
  | nil => simp at hl
  | cons a t ih =>
      rcases List.pairwise_cons.1 hp with ⟨hat, hpt⟩
      cases t with
      | nil =>
          simp at hl
          subst hl
          intro y hy
          simp at hy
          subst hy
          exact le_refl _
      | cons b u =>
          rw [List.getLast?_cons_cons] at hl
          intro y hy
          rcases List.mem_cons.1 hy with rfl | hy
          · have hx : x ∈ b :: u := by
              obtain ⟨hne, hx⟩ :=
                List.mem_getLast?_eq_getLast (l := b :: u) (x := x)
                  (by simp [Option.mem_def, hl])
              exact hx ▸ List.getLast_mem hne
            exact le_trans (ih hpt hl x hx) (hat x hx)
          · exact ih hpt hl y hy

theorem reconStep_completedAgents (st : ReconState) (s : PersistedSession) :
    (reconStep st s).completedAgents =
      if isCompletedWithResult s
        then st.completedAgents ++ [s.agentType]
        else st.completedAgents := by
  by_cases h : isCompletedWithResult s
  · simp only [reconStep, h, if_true]
    split <;> first | rfl | (split <;> rfl)
  · simp [reconStep, h]

theorem reconStep_agentResults (st : ReconState) (s : PersistedSession) :
    (reconStep st s).agentResults =
      if isCompletedWithResult s
        then st.agentResults ++ [sessionResult s]
        else st.agentResults := by
  by_cases h : isCompletedWithResult s
  · simp only [reconStep, h, if_true, sessionResult]
    split <;> first | rfl | (split <;> rfl)
  · simp [reconStep, h]

theorem reconStep_codeChanges (st : ReconState) (s : PersistedSession) :
    (reconStep st s).codeChanges = st.codeChanges := by
  by_cases h : isCompletedWithResult s
  · simp only [reconStep, h, if_true]
    split <;> first | rfl | (split <;> rfl)
  · simp [reconStep, h]

theorem reconStep_plan (st : ReconState) (s : PersistedSession) :
    (reconStep st s).planContext? =
      if isCompletedPlanner s then some (sessionPlan s) else st.planContext? := by
  by_cases h : isCompletedWithResult s
  · by_cases hpl : s.agentType == "planner"
    · simp [reconStep, h, hpl, isCompletedPlanner, sessionPlan]
    · by_cases hco : s.agentType == "coder" <;>
        simp [reconStep, h, hpl, hco, isCompletedPlanner]
  · simp [reconStep, h, isCompletedPlanner]

theorem foldl_reconStep_completedAgents (l : List PersistedSession) (st : ReconState) :
    (l.foldl reconStep st).completedAgents =
      st.completedAgents ++ (l.filter isCompletedWithResult).map (·.agentType) := by
  induction l generalizing st with
  | nil => simp
  | cons s t ih =>
      rw [List.foldl_cons, ih]
      by_cases h : isCompletedWithResult s <;>
        simp [reconStep_completedAgents, h, List.filter_cons]

theorem foldl_reconStep_agentResults (l : List PersistedSession) (st : ReconState) :
    (l.foldl reconStep st).agentResults =
      st.agentResults ++ (l.filter isCompletedWithResult).map sessionResult := by
  induction l generalizing st with
  | nil => simp
  | cons s t ih =>
      rw [List.foldl_cons, ih]
      by_cases h : isCompletedWithResult s <;>
        simp [reconStep_agentResults, h, List.filter_cons]

theorem foldl_reconStep_codeChanges (l : List PersistedSession) (st : ReconState) :
    (l.foldl reconStep st).codeChanges = st.codeChanges := by
  induction l generalizing st with
  | nil => simp
  | cons s t ih => rw [List.foldl_cons, ih, reconStep_codeChanges]

theorem foldl_reconStep_plan (l : List PersistedSession) (st : ReconState) :
    (l.foldl reconStep st).planContext? =
      match (l.filter isCompletedPlanner).getLast? with
      | some s => some (sessionPlan s)
      | none => st.planContext? := by
  induction l generalizing st with
  | nil => simp
  | cons s t ih =>
      rw [List.foldl_cons, ih]
      by_cases h : isCompletedPlanner s
      · rw [List.filter_cons_of_pos h]
        cases hft : t.filter isCompletedPlanner with
        | nil => simp [hft, reconStep_plan, h]
        | cons c cs =>
            rw [List.getLast?_cons_cons,
              List.getLast?_eq_getLast_of_ne_nil (List.cons_ne_nil c cs)]
      · rw [List.filter_cons_of_neg (by simpa using h)]
        cases hft : t.filter isCompletedPlanner with
        | nil => simp [hft, reconStep_plan, h]
        | cons c cs =>
            rw [List.getLast?_eq_getLast_of_ne_nil (List.cons_ne_nil c cs)]

theorem reconstruct_completedAgents (l : List PersistedSession) :
    (reconstruct l).completedAgents =
      (l.filter isCompletedWithResult).map (·.agentType) := by
  simpa using foldl_reconStep_completedAgents l ⟨[], none, [], []⟩

theorem reconstruct_agentResults (l : List PersistedSession) :
    (reconstruct l).agentResults =
      (l.filter isCompletedWithResult).map sessionResult := by
  simpa using foldl_reconStep_agentResults l ⟨[], none, [], []⟩

theorem reconstruct_codeChanges (l : List PersistedSession) :
    (reconstruct l).codeChanges = [] := by
  simpa using foldl_reconStep_codeChanges l ⟨[], none, [], []⟩

theorem reconstruct_plan (l : List PersistedSession) :
    (reconstruct l).planContext? =
      ((l.filter isCompletedPlanner).getLast?).map sessionPlan := by
  rw [reconstruct, foldl_reconStep_plan]
  cases (l.filter isCompletedPlanner).getLast? <;> simp

theorem reconstruct_mem_completedAgents (stored : List PersistedSession) (x : String) :
    x ∈ (reconstruct (getAgentSessionsByTask stored)).completedAgents ↔
      ∃ s ∈ stored, s.agentType = x ∧ s.status = "completed" ∧
        truthyStr s.result? = true := by
  rw [reconstruct_completedAgents]
  simp only [List.mem_map, List.mem_filter, mem_getAgentSessionsByTask,
    isCompletedWithResult, Bool.and_eq_true, beq_iff_eq]
  constructor
  · rintro ⟨s, ⟨hs, hc, ht⟩, rfl⟩
    exact ⟨s, hs, rfl, hc, ht⟩
  · rintro ⟨s, hs, rfl, hc, ht⟩
    exact ⟨s, ⟨hs, hc, ht⟩, rfl⟩

theorem agentsToExecute_sublist (o : OrchestrationOptions) (ca : List String) :
    (agentsToExecute o ca).Sublist [.planner, .coder, .reviewer] := by
  unfold agentsToExecute
  split <;> split <;> split <;> decide

theorem roleStr_not_mem_of_mem_agentsToExecute {o : OrchestrationOptions}
    {ca : List String} {r : AgentType} (h : r ∈ agentsToExecute o ca) :
    roleStr r ∉ ca := by
  simp [agentsToExecute] at h
  rcases h with ⟨hm, rfl⟩ | ⟨hm, rfl⟩ | ⟨⟨hs, hm, hsome⟩, rfl⟩ <;>
    simpa [roleStr] using hm

theorem planner_mem_agentsToExecute {o : OrchestrationOptions} {ca : List String}
    (h : "planner" ∉ ca) :
    AgentType.planner ∈ agentsToExecute o ca := by
  simp [agentsToExecute, h]

theorem coder_mem_agentsToExecute {o : OrchestrationOptions} {ca : List String}
    (h : "coder" ∉ ca) :
    AgentType.coder ∈ agentsToExecute o ca := by
  simp [agentsToExecute, h]

theorem reviewer_mem_agentsToExecute {o : OrchestrationOptions} {ca : List String}
    (h : "reviewer" ∉ ca) (hs : o.skipReview = false) (hr : o.reviewer?.isSome = true) :
    AgentType.reviewer ∈ agentsToExecute o ca := by
  simp [agentsToExecute, h, hs, hr]

theorem agentsToExecute_eq_nil {o : OrchestrationOptions} {ca : List String}
    (hp : "planner" ∈ ca) (hc : "coder" ∈ ca)
    (hr : o.skipReview = true ∨ "reviewer" ∈ ca) :
    agentsToExecute o ca = [] := by
  rcases hr with hr | hr <;> simp [agentsToExecute, hp, hc, hr]

theorem sessionStarts_resumeLoop (desc taskId : String) (o : OrchestrationOptions)
    (hT : ∀ r a, o.agentFor r = some a → a.type = r) :
    ∀ (l : List AgentType) (results : List AgentResult) (p? : Option PlanContext)
      (cc : List CodeChange) (ev : List Event),
      (sessionStarts (resumeLoop desc taskId o l results p? cc ev).1).Sublist
        (sessionStarts ev ++ l) := by
  intro l
  induction l with
  | nil =>
      intro results p? cc ev
      simp [resumeLoop]
  | cons a rest ih =>
      intro results p? cc ev
      cases hA : o.agentFor a with
      | none =>
          simp only [resumeLoop, hA]
          simp
      | some agent =>
          have ht : agent.type = a := hT a agent hA
          simp only [resumeLoop, hA]
          cases hs : (executeAgent agent (resumeCtx desc taskId a results p? cc)
              o.dryRun).2.success with
          | false =>
              rw [if_pos (by simp)]
              simp [ht]
          | true =>
              rw [if_neg (by simp)]
              refine List.Sublist.trans (ih _ _ _ _) ?_
              have heq : sessionStarts
                  (ev ++ [Event.updateTaskStatus (stageStatus a)] ++
                    (executeAgent agent (resumeCtx desc taskId a results p? cc)
                      o.dryRun).1) ++ rest =
                  sessionStarts ev ++ a :: rest := by
                simp [ht]
              rw [heq]

theorem sessionStarts_orchestrateFrom (desc taskId : String) (P C : Agent)
    (o : OrchestrationOptions) (hP : P.type = .planner) (hC : C.type = .coder)
    (hR : ∀ a, o.reviewer? = some a → a.type = .reviewer) :
    (sessionStarts (orchestrateFrom desc taskId P C o).1).Sublist
      [.planner, .coder, .reviewer] := by
  unfold orchestrateFrom
  dsimp only
  split
  · simp [hP]
  · split
    · simp [hP]
    · split
      · simp [hP, hC]
      · split
        · simp [hP, hC]
        · split
          · simp [hP, hC]
          · next rev heq =>
              have hRt : rev.type = .reviewer := hR rev heq
              split
              · simp [hP, hC, hRt]
              · simp [hP, hC, hRt]

/-- C1. For every run of orchestrateAgents or resumeOrchestration, the agent
sessions created during the run, in start order (equal to session-creation
order in the single-threaded trace), form a subsequence of
planner, coder, reviewer; in a resume run no session is created for a role
that already had a completed session when the remaining-stage list was
computed. -/
theorem claim1_stage_order_subsequence :
    (∀ (desc taskId : String) (o : OrchestrationOptions) (tr : List Event)
        (res : OrchestrationResult), wellTyped o →
        orchestrateAgents desc taskId o = .ok (tr, res) →
        (sessionStarts tr).Sublist [.planner, .coder, .reviewer]) ∧
    (∀ (task : Task) (stored : List PersistedSession) (o : OrchestrationOptions)
        (tr : List Event) (res : OrchestrationResult), wellTyped o →
        resumeOrchestration (some task) stored o = .ok (tr, res) →
        (sessionStarts tr).Sublist [.planner, .coder, .reviewer] ∧
        ∀ r ∈ sessionStarts tr,
          roleStr r ∉ (reconstruct (getAgentSessionsByTask stored)).completedAgents) := by
  constructor
  · intro desc taskId o tr res hW hok
    cases hp : o.planner? with
    | none => simp [orchestrateAgents, hp] at hok
    | some P =>
        cases hc : o.coder? with
        | none => simp [orchestrateAgents, hp, hc] at hok
        | some C =>
            simp only [orchestrateAgents, hp, hc] at hok
            split at hok
            · simp at hok
            · rw [Except.ok.injEq] at hok
              have htr : (orchestrateFrom desc taskId P C o).1 = tr :=
                congrArg Prod.fst hok
              rw [← htr]
              exact sessionStarts_orchestrateFrom desc taskId P C o
                (hW.1 P hp) (hW.2.1 C hc) (fun a ha => hW.2.2 a ha)
  · intro task stored o tr res hW hok
    have hT : ∀ r a, o.agentFor r = some a → a.type = r := by
      intro r a h
      cases r
      · exact hW.1 a h
      · exact hW.2.1 a h
      · exact hW.2.2 a h
    have hev0 : sessionStarts
        (if truthyStr task.error? then [Event.clearTaskError] else []) = [] := by
      split <;> simp
    simp only [resumeOrchestration] at hok
    split at hok
    · rw [Except.ok.injEq] at hok
      injection hok with h1 h2
      subst h1
      constructor
      · simp [hev0]
      · simp [hev0]
    · rw [Except.ok.injEq] at hok
      have htr : (resumeLoop task.description task.id o
          (agentsToExecute o
            (reconstruct (getAgentSessionsByTask stored)).completedAgents)
          (reconstruct (getAgentSessionsByTask stored)).agentResults
          (reconstruct (getAgentSessionsByTask stored)).planContext?
          (reconstruct (getAgentSessionsByTask stored)).codeChanges
          (if truthyStr task.error? then [Event.clearTaskError] else [])).1 = tr :=
        congrArg Prod.fst hok
      have hsub : (sessionStarts tr).Sublist
          (agentsToExecute o
            (reconstruct (getAgentSessionsByTask stored)).completedAgents) := by
        rw [← htr]
        have := sessionStarts_resumeLoop task.description task.id o hT
          (agentsToExecute o
            (reconstruct (getAgentSessionsByTask stored)).completedAgents)
          (reconstruct (getAgentSessionsByTask stored)).agentResults
          (reconstruct (getAgentSessionsByTask stored)).planContext?
          (reconstruct (getAgentSessionsByTask stored)).codeChanges
          (if truthyStr task.error? then [Event.clearTaskError] else [])
        simpa [hev0] using this
      constructor
      · exact hsub.trans (agentsToExecute_sublist o _)
      · intro r hr
        exact roleStr_not_mem_of_mem_agentsToExecute (hsub.subset hr)

theorem wellTyped_opts7 : wellTyped opts7 := by
  refine ⟨fun a h => ?_, fun a h => ?_, fun a h => ?_⟩ <;>
    (simp only [opts7] at h; injection h with h; subst h; rfl)

theorem wellTyped_resumeOpts1 : wellTyped resumeOpts1 := by
  refine ⟨fun a h => ?_, fun a h => ?_, fun a h => ?_⟩
  · simp [resumeOpts1] at h
  · simp [resumeOpts1] at h
  · simp only [resumeOpts1] at h
    injection h with h
    subst h
    rfl

/-- Witness for C1: both entry points applied to concrete runs. -/
theorem claim1_witness :
    (sessionStarts (traceOf run7)).Sublist [.planner, .coder, .reviewer] ∧
    ((sessionStarts (traceOf runResume1)).Sublist [.planner, .coder, .reviewer] ∧
      ∀ r ∈ sessionStarts (traceOf runResume1),
        roleStr r ∉ (reconstruct
          (getAgentSessionsByTask [plannerSessionOld, coderSession1])).completedAgents) :=
  ⟨claim1_stage_order_subsequence.1 "d" "t1" opts7 (traceOf run7) res7
      wellTyped_opts7 rfl,
   claim1_stage_order_subsequence.2 task1 [plannerSessionOld, coderSession1] resumeOpts1
      (traceOf runResume1) resResume1 wellTyped_resumeOpts1 rfl⟩

/-- C2. If the planner stage of orchestrateAgents produces an unsuccessful
result, the coder and reviewer agents are never invoked, exactly one
setTaskError mutation is issued (with the planner error or its default), and
the returned result has status Failed carrying the planner error. -/
theorem claim2_planner_failfast (desc taskId : String) (o : OrchestrationOptions)
    (P : Agent) (hP : o.planner? = some P) (hPt : P.type = .planner)
    (tr : List Event) (res : OrchestrationResult)
    (hok : orchestrateAgents desc taskId o = .ok (tr, res))
    (hfail : (executeAgent P (initialContext desc taskId) o.dryRun).2.success = false) :
    invokedRoles tr = [.planner] ∧
    taskErrors tr =
      [(executeAgent P (initialContext desc taskId) o.dryRun).2.error?.getD
        "Planner agent failed"] ∧
    res.status = .failed ∧
    res.error? = (executeAgent P (initialContext desc taskId) o.dryRun).2.error? := by
  cases hc : o.coder? with
  | none => simp [orchestrateAgents, hP, hc] at hok
  | some C =>
      simp only [orchestrateAgents, hP, hc] at hok
      split at hok
      · simp at hok
      · rw [Except.ok.injEq] at hok
        have htr : (orchestrateFrom desc taskId P C o).1 = tr := congrArg Prod.fst hok
        have hres : (orchestrateFrom desc taskId P C o).2 = res := congrArg Prod.snd hok
        rw [← htr, ← hres]
        unfold orchestrateFrom
        dsimp only
        rw [if_pos (by simp [hfail])]
        refine ⟨?_, ?_, ?_, ?_⟩ <;> simp [hPt]

/-- Witness for C2: a concrete run whose planner returns a failure result. -/
theorem claim2_witness :
    invokedRoles (traceOf runFail) = [.planner] ∧
    taskErrors (traceOf runFail) =
      [(executeAgent failingPlanner (initialContext "d" "t1") optsFail.dryRun).2.error?.getD
        "Planner agent failed"] ∧
    resFail.status = .failed ∧
    resFail.error? =
      (executeAgent failingPlanner (initialContext "d" "t1") optsFail.dryRun).2.error? :=
  claim2_planner_failfast "d" "t1" optsFail failingPlanner rfl rfl
    (traceOf runFail) resFail rfl (by decide)

/-- C5. If invoking the agent throws, executeAgent catches the exception,
fails the session with the thrown message, and returns the synthesized
failure result of createFailureResult; being a total function, it propagates
nothing to its caller. -/
theorem claim5_exception_containment (agent : Agent) (ctx : AgentContext)
    (dryRun : Bool) (evs : List AgentStoreEvent) (msg : String)
    (h : agent.behavior ctx dryRun = (evs, .throws msg)) :
    (executeAgent agent ctx dryRun).1 =
      [.createSession agent.type, .startSession agent.type,
        .invokeAgent agent.type ctx] ++
        evs.map Event.agentStore ++ [.failSession agent.type msg] ∧
    (executeAgent agent ctx dryRun).2 = createFailureResult (roleStr agent.type) msg ∧
    (executeAgent agent ctx dryRun).2.success = false ∧
    (executeAgent agent ctx dryRun).2.error? = some msg := by
  refine ⟨?_, ?_, ?_, ?_⟩ <;> simp [executeAgent, h, createFailureResult]

/-- Witness for C5: a concrete throwing agent. -/
theorem claim5_witness :
    (executeAgent throwingAgent ctx1 false).1 =
      [.createSession throwingAgent.type, .startSession throwingAgent.type,
        .invokeAgent throwingAgent.type ctx1] ++
        List.map Event.agentStore [] ++ [.failSession throwingAgent.type "boom"] ∧
    (executeAgent throwingAgent ctx1 false).2 =
      createFailureResult (roleStr throwingAgent.type) "boom" ∧
    (executeAgent throwingAgent ctx1 false).2.success = false ∧
    (executeAgent throwingAgent ctx1 false).2.error? = some "boom" :=
  claim5_exception_containment throwingAgent ctx1 false [] "boom" rfl

/-- C6 counterexample. Even with dryRun set, a successful stage still gets
its session-completion write: the dry-run flag does not suppress
completeAgentSession in executeAgent, contradicting the claim that the
session-completion write is skipped and the session terminal state is left
unchanged. -/
theorem claim6_counterexample :
    Event.completeSession .planner "the plan" ∈
      (executeAgent (plannerAgent none "the plan" 3) ctx1 true).1 := by decide

/-- C6 as amended: with dryRun set the agent is still invoked and the
stage-specific persistence (the plans/store write guarded in planner.ts, and
likewise in coder.ts and reviewer.ts) is skipped, but the session-completion
write still happens, so the session still reaches its terminal state. -/
theorem claim6_dryrun_amended (configTaskId? : Option String) (content : String)
    (now : Int) (ctx : AgentContext) :
    invokedRoles (executeAgent (plannerAgent configTaskId? content now) ctx true).1 =
      [.planner] ∧
    storeEvents (executeAgent (plannerAgent configTaskId? content now) ctx true).1 = [] ∧
    Event.completeSession .planner content ∈
      (executeAgent (plannerAgent configTaskId? content now) ctx true).1 := by
  refine ⟨?_, ?_, ?_⟩
  · simp [plannerAgent]
  · simp [plannerAgent, stageStoreGuard]
  · simp [executeAgent, plannerAgent, stageStoreGuard]

/-- C3 counterexample. On a task with a completed planner and a completed
coder session, the resume run invokes the reviewer with a context carrying no
code changes at all: the reconstruction never loads code-change records (the
reconstructed result has no metadata and the codeChanges table is not
queried), so the completed coder session does not yield the codeChanges list
the claim describes. -/
theorem claim3_counterexample :
    isCompletedWithResult coderSession1 = true ∧
    (contextsFor .reviewer (traceOf runResume1)).map AgentContext.codeChanges? =
      [none] ∧
    (reconstruct
      (getAgentSessionsByTask [plannerSessionOld, coderSession1])).codeChanges = [] := by
  decide

/-- C3 as amended: reconstruction folds each completed session in query
order; a completed planner session yields the plan (the last-visited, oldest
completed planner session winning), while a completed coder session
contributes only its raw result — the reconstructed codeChanges list is
always empty, because the session record carries no metadata and the stored
CodeChange records are never read. -/
theorem claim3_context_reconstruction_amended (stored : List PersistedSession) :
    (reconstruct (getAgentSessionsByTask stored)).codeChanges = [] ∧
    (reconstruct (getAgentSessionsByTask stored)).planContext? =
      (((getAgentSessionsByTask stored).filter isCompletedPlanner).getLast?).map
        sessionPlan := by
  exact ⟨reconstruct_codeChanges _, reconstruct_plan _⟩

/-- C4. Resuming a task whose required roles all have completed sessions
executes no agent, creates no session, writes the task status exactly once
(to completed), and returns the reconstructed results with status
Completed. -/
theorem claim4_idempotent_resume (task : Task) (stored : List PersistedSession)
    (o : OrchestrationOptions)
    (hp : ∃ s ∈ stored, s.agentType = "planner" ∧ s.status = "completed" ∧
      truthyStr s.result? = true)
    (hc : ∃ s ∈ stored, s.agentType = "coder" ∧ s.status = "completed" ∧
      truthyStr s.result? = true)
    (hr : o.skipReview = true ∨ ∃ s ∈ stored, s.agentType = "reviewer" ∧
      s.status = "completed" ∧ truthyStr s.result? = true) :
    invokedRoles (traceOf (resumeOrchestration (some task) stored o)) = [] ∧
    sessionStarts (traceOf (resumeOrchestration (some task) stored o)) = [] ∧
    statusWrites (traceOf (resumeOrchestration (some task) stored o)) =
      [TaskStatus.completed] ∧
    resultOf (resumeOrchestration (some task) stored o) =
      some { taskId := task.id, status := .completed,
             agentResults := (reconstruct (getAgentSessionsByTask stored)).agentResults,
             error? := none } := by
  have h1 : "planner" ∈ (reconstruct (getAgentSessionsByTask stored)).completedAgents :=
    (reconstruct_mem_completedAgents stored "planner").2 hp
  have h2 : "coder" ∈ (reconstruct (getAgentSessionsByTask stored)).completedAgents :=
    (reconstruct_mem_completedAgents stored "coder").2 hc
  have h3 : o.skipReview = true ∨
      "reviewer" ∈ (reconstruct (getAgentSessionsByTask stored)).completedAgents :=
    hr.imp id fun hx => (reconstruct_mem_completedAgents stored "reviewer").2 hx
  have hnil := agentsToExecute_eq_nil h1 h2 h3
  refine ⟨?_, ?_, ?_, ?_⟩ <;>
    simp only [resumeOrchestration, hnil, List.isEmpty_nil, if_true, traceOf, resultOf] <;>
    split <;> simp

/-- Witness for C4: resuming with completed planner and coder sessions and
review skipped. -/
theorem claim4_witness :
    invokedRoles (traceOf (resumeOrchestration (some task1)
      [plannerSessionOld, coderSession1] resumeOpts4)) = [] ∧
    sessionStarts (traceOf (resumeOrchestration (some task1)
      [plannerSessionOld, coderSession1] resumeOpts4)) = [] ∧
    statusWrites (traceOf (resumeOrchestration (some task1)
      [plannerSessionOld, coderSession1] resumeOpts4)) = [TaskStatus.completed] ∧
    resultOf (resumeOrchestration (some task1)
      [plannerSessionOld, coderSession1] resumeOpts4) =
      some { taskId := task1.id, status := .completed,
             agentResults := (reconstruct (getAgentSessionsByTask
               [plannerSessionOld, coderSession1])).agentResults,
             error? := none } :=
  claim4_idempotent_resume task1 [plannerSessionOld, coderSession1] resumeOpts4
    ⟨plannerSessionOld, by decide, by decide⟩
    ⟨coderSession1, by decide, by decide⟩
    (Or.inl rfl)

/-- C8. The resume pass counts a stored session as successfully completed
exactly when its status string is completed and its result is a truthy
(non-empty, present) string; a role all of whose sessions fail that test is
put back on the remaining-stage list. -/
theorem claim8_completed_session_predicate (stored : List PersistedSession)
    (o : OrchestrationOptions) (r : AgentType)
    (hno : ∀ s ∈ stored, s.agentType = roleStr r →
      ¬(s.status = "completed" ∧ truthyStr s.result? = true))
    (hrev : r = .reviewer → o.skipReview = false ∧ o.reviewer?.isSome = true) :
    roleStr r ∉ (reconstruct (getAgentSessionsByTask stored)).completedAgents ∧
    r ∈ agentsToExecute o (reconstruct (getAgentSessionsByTask stored)).completedAgents ∧
    (∀ x, x ∈ (reconstruct (getAgentSessionsByTask stored)).completedAgents ↔
      ∃ s ∈ stored, s.agentType = x ∧ s.status = "completed" ∧
        truthyStr s.result? = true) := by
  have hmem : roleStr r ∉ (reconstruct (getAgentSessionsByTask stored)).completedAgents := by
    intro hx
    obtain ⟨s, hs, hty, hco, htr⟩ := (reconstruct_mem_completedAgents stored _).1 hx
    exact hno s hs hty ⟨hco, htr⟩
  refine ⟨hmem, ?_, fun x => reconstruct_mem_completedAgents stored x⟩
  cases r with
  | planner => exact planner_mem_agentsToExecute hmem
  | coder => exact coder_mem_agentsToExecute hmem
  | reviewer => exact reviewer_mem_agentsToExecute hmem (hrev rfl).1 (hrev rfl).2

/-- Witness for C8: a planner session with status completed but an empty
result string is not counted, and the planner stage is executed again. -/
theorem claim8_witness :
    roleStr .planner ∉ (reconstruct
      (getAgentSessionsByTask [emptyResultPlannerSession])).completedAgents ∧
    AgentType.planner ∈ agentsToExecute resumeOpts1 (reconstruct
      (getAgentSessionsByTask [emptyResultPlannerSession])).completedAgents ∧
    (∀ x, x ∈ (reconstruct
        (getAgentSessionsByTask [emptyResultPlannerSession])).completedAgents ↔
      ∃ s ∈ [emptyResultPlannerSession], s.agentType = x ∧ s.status = "completed" ∧
        truthyStr s.result? = true) :=
  claim8_completed_session_predicate [emptyResultPlannerSession] resumeOpts1 .planner
    (by decide) (fun h => absurd h (by decide))

/-- C9. With at least one completed planner session stored, the plan is
reconstructed from the completed planner session with the smallest startedAt:
the query sorts descending by startedAt, and the fold overwrites the plan on
every completed planner session it visits, so the last-visited session wins. -/
theorem claim9_oldest_planner_session (stored : List PersistedSession)
    (h : ∃ s ∈ stored, isCompletedPlanner s = true) :
    ∃ s₀ ∈ stored, isCompletedPlanner s₀ = true ∧
      (reconstruct (getAgentSessionsByTask stored)).planContext? =
        some (sessionPlan s₀) ∧
      ∀ s ∈ stored, isCompletedPlanner s = true → s₀.startedAt ≤ s.startedAt := by
  have hne : (getAgentSessionsByTask stored).filter isCompletedPlanner ≠ [] := by
    obtain ⟨s, hs, hp⟩ := h
    intro hnil
    have hmem : s ∈ (getAgentSessionsByTask stored).filter isCompletedPlanner :=
      List.mem_filter.2 ⟨(mem_getAgentSessionsByTask s stored).2 hs, hp⟩
    simp [hnil] at hmem
  set l := (getAgentSessionsByTask stored).filter isCompletedPlanner with hldef
  have hlast : l.getLast? = some (l.getLast hne) :=
    List.getLast?_eq_getLast_of_ne_nil hne
  have hmem0 : l.getLast hne ∈ l := List.getLast_mem hne
  have hpair : l.Pairwise fun a b => b.startedAt ≤ a.startedAt :=
    (pairwise_getAgentSessionsByTask stored).sublist (List.filter_sublist _)
  refine ⟨l.getLast hne, ?_, ?_, ?_, ?_⟩
  · exact (mem_getAgentSessionsByTask _ stored).1 (List.mem_filter.1 hmem0).1
  · exact (List.mem_filter.1 hmem0).2
  · rw [reconstruct_plan, ← hldef, hlast]
    rfl
  · intro s hs hp
    have hsmem : s ∈ l :=
      List.mem_filter.2 ⟨(mem_getAgentSessionsByTask s stored).2 hs, hp⟩
    exact getLast?_min_of_pairwise l (l.getLast hne) hpair hlast s hsmem

/-- Witness for C9: two completed planner sessions; the plan comes from the
older one. -/
theorem claim9_witness :
    ∃ s₀ ∈ [plannerSessionNew, plannerSessionOld], isCompletedPlanner s₀ = true ∧
      (reconstruct (getAgentSessionsByTask
        [plannerSessionNew, plannerSessionOld])).planContext? =
        some (sessionPlan s₀) ∧
      ∀ s ∈ [plannerSessionNew, plannerSessionOld], isCompletedPlanner s = true →
        s₀.startedAt ≤ s.startedAt :=
  claim9_oldest_planner_session [plannerSessionNew, plannerSessionOld]
    ⟨plannerSessionOld, by decide, by decide⟩

/-- C10. Every session row reaching a terminal status through the
agentSessions mutations has a result string and a completedAt:
completeAgentSession writes the result with status completed,
failAgentSession writes the error message into the result field (the schema
has no separate error field), and each writes completedAt in the same
patch. -/
theorem claim10_terminal_session_fields (taskId agentType : String) (now : Int)
    (muts : List SessionMut)
    (hterm :
      (muts.foldl applySessionMut (createAgentSession taskId agentType now)).status =
          "completed" ∨
      (muts.foldl applySessionMut (createAgentSession taskId agentType now)).status =
          "failed") :
    ((muts.foldl applySessionMut (createAgentSession taskId agentType now)).result?.isSome
        = true ∧
      (muts.foldl applySessionMut
        (createAgentSession taskId agentType now)).completedAt?.isSome = true) ∧
    (∀ (s : PersistedSession) (r : String) (n : Int),
      (completeAgentSession s r n).status = "completed" ∧
      (completeAgentSession s r n).result? = some r ∧
      (completeAgentSession s r n).completedAt? = some n) ∧
    (∀ (s : PersistedSession) (e : String) (n : Int),
      (failAgentSession s e n).status = "failed" ∧
      (failAgentSession s e n).result? = some e ∧
      (failAgentSession s e n).completedAt? = some n) := by
  refine ⟨?_, ?_, ?_⟩
  · have key : ∀ (l : List SessionMut) (s : PersistedSession),
        (s.status = "completed" ∨ s.status = "failed" →
          s.result?.isSome = true ∧ s.completedAt?.isSome = true) →
        ((l.foldl applySessionMut s).status = "completed" ∨
          (l.foldl applySessionMut s).status = "failed") →
        (l.foldl applySessionMut s).result?.isSome = true ∧
          (l.foldl applySessionMut s).completedAt?.isSome = true := by
      intro l
      induction l with
      | nil => intro s hs ht; exact hs ht
      | cons m ms ih =>
          intro s hs ht
          refine ih (applySessionMut s m) ?_ ht
          cases m with
          | start =>
              intro hcontra
              simp [applySessionMut, startAgentSession] at hcontra
          | complete r n => intro _; simp [applySessionMut, completeAgentSession]
          | fail e n => intro _; simp [applySessionMut, failAgentSession]
    refine key muts (createAgentSession taskId agentType now) ?_ hterm
    intro hcontra
    simp [createAgentSession] at hcontra
  · intro s r n
    refine ⟨rfl, rfl, rfl⟩
  · intro s e n
    refine ⟨rfl, rfl, rfl⟩

/-- C7 counterexample. A fully successful run of orchestrateAgents with
dryRun unset (and the agents constructed as the CLI constructs them, without
a configured taskId) reaches the coder and reviewer stages without a single
plans-table write: no plan record is persisted before the coder stage
begins. -/
theorem claim7_counterexample :
    storePlanContents (traceOf run7) = [] ∧
    invokedRoles (traceOf run7) = [.planner, .coder, .reviewer] ∧
    (resultOf run7).map OrchestrationResult.status = some .completed ∧
    opts7.dryRun = false := by
  decide

/-- C7 as amended: when the agents perform no internal store writes (as with
the CLI construction, whose agent configurations carry no taskId),
orchestrateAgents issues no plans-table write at all — plan persistence is an
unimplemented TODO in coordination.ts — and the planner output reaches the
coder stage only through the in-memory plan context of its invocation. -/
theorem claim7_plan_not_persisted_amended (desc taskId : String)
    (o : OrchestrationOptions) (P : Agent)
    (hP : o.planner? = some P) (hW : wellTyped o)
    (hquiet : ∀ r a, o.agentFor r = some a → ∀ ctx d, (a.behavior ctx d).1 = [])
    (tr : List Event) (res : OrchestrationResult)
    (hok : orchestrateAgents desc taskId o = .ok (tr, res)) :
    storePlanContents tr = [] ∧
    ∀ ctx ∈ contextsFor .coder tr,
      ctx.plan? = some (PlanContext.mk
        (executeAgent P (initialContext desc taskId) o.dryRun).2.content
        (executeAgent P (initialContext desc taskId) o.dryRun).2.completedAt) := by
  cases hc : o.coder? with
  | none => simp [orchestrateAgents, hP, hc] at hok
  | some C =>
      simp only [orchestrateAgents, hP, hc] at hok
      split at hok
      · simp at hok
      · rw [Except.ok.injEq] at hok
        have htr : (orchestrateFrom desc taskId P C o).1 = tr := congrArg Prod.fst hok
        rw [← htr]
        have hPt : P.type = .planner := hW.1 P hP
        have hCt : C.type = .coder := hW.2.1 C hc
        have hqP : ∀ ctx d, (P.behavior ctx d).1 = [] := hquiet .planner P hP
        have hqC : ∀ ctx d, (C.behavior ctx d).1 = [] := hquiet .coder C hc
        unfold orchestrateFrom
        dsimp only
        split
        · exact ⟨by simp [hqP, planWrites], by simp [hPt]⟩
        · split
          · exact ⟨by simp [hqP, planWrites], by simp [hPt]⟩
          · split
            · exact ⟨by simp [hqP, hqC, planWrites], by simp [hPt, hCt]⟩
            · split
              · exact ⟨by simp [hqP, hqC, planWrites], by simp [hPt, hCt]⟩
              · split
                · exact ⟨by simp [hqP, hqC, planWrites], by simp [hPt, hCt]⟩
                · next rev heq =>
                    have hRt : rev.type = .reviewer := hW.2.2 rev heq
                    have hqR : ∀ ctx d, (rev.behavior ctx d).1 = [] :=
                      hquiet .reviewer rev heq
                    split
                    · exact ⟨by simp [hqP, hqC, hqR, planWrites],
                        by simp [hPt, hCt, hRt]⟩
                    · exact ⟨by simp [hqP, hqC, hqR, planWrites],
                        by simp [hPt, hCt, hRt]⟩

/-- Witness for C7 as amended: the concrete happy-path run. -/
theorem claim7_witness :
    storePlanContents (traceOf run7) = [] ∧
    ∀ ctx ∈ contextsFor .coder (traceOf run7),
      ctx.plan? = some (PlanContext.mk
        (executeAgent (plannerAgent none "the plan" 3) (initialContext "d" "t1")
          opts7.dryRun).2.content
        (executeAgent (plannerAgent none "the plan" 3) (initialContext "d" "t1")
          opts7.dryRun).2.completedAt) :=
  claim7_plan_not_persisted_amended "d" "t1" opts7 (plannerAgent none "the plan" 3)
    rfl wellTyped_opts7
    (by
      intro r a h ctx d
      cases r <;> simp only [OrchestrationOptions.agentFor, opts7] at h <;>
        (injection h with h; subst h) <;>
        simp [plannerAgent, okAgent, stageStoreGuard, truthyStr])
    (traceOf run7) res7 rfl

/-- Witness for C10: a session that is started and then completed. -/
theorem claim10_witness :
    ((([SessionMut.start, SessionMut.complete "done" 5].foldl applySessionMut
        (createAgentSession "t1" "planner" 1)).result?.isSome = true ∧
      ([SessionMut.start, SessionMut.complete "done" 5].foldl applySessionMut
        (createAgentSession "t1" "planner" 1)).completedAt?.isSome = true) ∧
    (∀ (s : PersistedSession) (r : String) (n : Int),
      (completeAgentSession s r n).status = "completed" ∧
      (completeAgentSession s r n).result? = some r ∧
      (completeAgentSession s r n).completedAt? = some n) ∧
    (∀ (s : PersistedSession) (e : String) (n : Int),
      (failAgentSession s e n).status = "failed" ∧
      (failAgentSession s e n).result? = some e ∧
      (failAgentSession s e n).completedAt? = some n)) :=
  claim10_terminal_session_fields "t1" "planner" 1
    [SessionMut.start, SessionMut.complete "done" 5] (by decide)

end CodingAgent
